import Mathlib

set_option maxRecDepth 4000

/-!
Shallow embedding of the brew-tracking core (data_structure_brew_tracking.py
and interface_brew_tracking.py).  Pure data and operations are translated
directly from the Python source; the Flask request plumbing is dropped and
each handler becomes a function from the aggregate program state (batches,
customer orders, inventory) and the form inputs to a result and a new state.
Python datetimes are modelled by a Gregorian calendar structure with
minute resolution; all phase durations in the source are whole numbers of
minutes (the bottling duration (1/60)*volume*2 hours is volume*2 minutes).
-/

/-! ## Calendar (datetime / timedelta / calendar.monthrange) -/

def isLeapYear (y : Nat) : Bool :=
  y % 4 == 0 && (y % 100 != 0 || y % 400 == 0)

/-- Number of days of month m in year y, as returned by
calendar.monthrange(y, m)[1] (proleptic Gregorian). -/
def monthLength (y m : Nat) : Nat :=
  if m = 2 then (if isLeapYear y then 29 else 28)
  else if m = 4 ∨ m = 6 ∨ m = 9 ∨ m = 11 then 30
  else 31

structure DateTime where
  year : Nat
  month : Nat
  day : Nat
  minute : Nat
  deriving DecidableEq, Repr

def nextDay (d : DateTime) : DateTime :=
  if d.day < monthLength d.year d.month then
    { d with day := d.day + 1 }
  else if d.month < 12 then
    { year := d.year, month := d.month + 1, day := 1, minute := d.minute }
  else
    { year := d.year + 1, month := 1, day := 1, minute := d.minute }

def addDays : DateTime → Nat → DateTime
  | d, 0 => d
  | d, k + 1 => addDays (nextDay d) k

def addMinutes (d : DateTime) (k : Nat) : DateTime :=
  let t := d.minute + k
  addDays { d with minute := t % 1440 } (t / 1440)

/-! ## Enumerations.  Beer types are the three option values of the HTML
select lists (add_delete_batch and register order forms); phase values are
the five option values of the change_batchs_phase form, and the batch field
phase_current starts as the empty string, modelled as Phase.unset. -/
inductive BeerType
  | dunkers
  | pilsner
  | red_helles
  deriving DecidableEq, Repr

inductive Phase
  | unset
  | hot_brewing
  | ferm
  | cond
  | bottling
  | finished
  deriving DecidableEq, Repr

inductive PhaseInput
  | hot_brewing
  | ferm
  | cond
  | bottling
  | finished
  deriving DecidableEq, Repr

def PhaseInput.toPhase : PhaseInput → Phase
  | .hot_brewing => .hot_brewing
  | .ferm => .ferm
  | .cond => .cond
  | .bottling => .bottling
  | .finished => .finished

/-- The string value of the phase form input, used by the source for the
tank-capability membership test. -/
def PhaseInput.toStr : PhaseInput → String
  | .hot_brewing => "hot brewing"
  | .ferm => "ferm"
  | .cond => "cond"
  | .bottling => "bottling"
  | .finished => "finished"

def Phase.toStr : Phase → String
  | .unset => ""
  | .hot_brewing => "hot brewing"
  | .ferm => "ferm"
  | .cond => "cond"
  | .bottling => "bottling"
  | .finished => "finished"

/-! ## Tanks (class Tanks) -/

structure TankValue where
  capability : List String
  volume : Nat
  deriving DecidableEq, Repr

/-- Tanks.get_tank_value: getattr on the nine instance variables; on
AttributeError it logs and returns the degraded default tank.  This
TankValue-typed projection is exact on catalog names and on names hitting
AttributeError; it is what the handlers consume, and they only ever
evaluate it at catalog tank names (members of the available-tanks lists,
which are drawn from get_tank_names).  The full getattr behaviour —
getattr also succeeds on the non-tank attributes of the instance,
returning a bound method or class attribute — is modelled separately by
tanks_getattr below. -/
def get_tank_value (tank_name : String) : TankValue :=
  if tank_name = "albert" then ⟨["ferm", "cond"], 1000⟩
  else if tank_name = "brigadier" then ⟨["ferm", "cond"], 800⟩
  else if tank_name = "camilla" then ⟨["ferm", "cond"], 1000⟩
  else if tank_name = "dylon" then ⟨["ferm", "cond"], 800⟩
  else if tank_name = "emily" then ⟨["ferm", "cond"], 1000⟩
  else if tank_name = "florence" then ⟨["ferm", "cond"], 800⟩
  else if tank_name = "gertrude" then ⟨["cond"], 680⟩
  else if tank_name = "harry" then ⟨["cond"], 680⟩
  else if tank_name = "r2d2" then ⟨["ferm"], 800⟩
  else ⟨[""], 0⟩

/-- Tanks.get_tank_names: dir(self) filtered to instance variables; dir
returns names sorted alphabetically. -/
def get_tank_names : List String :=
  ["albert", "brigadier", "camilla", "dylon", "emily",
   "florence", "gertrude", "harry", "r2d2"]

/-- The attributes a Tanks instance carries besides the nine tank dicts:
the two methods defined by the class and the standard attributes of every
plain Python 3 object.  getattr succeeds on all of these, so a lookup
with one of these names never reaches the AttributeError branch.  (The
exact dunder inventory is interpreter-version dependent; which particular
dunders exist is not load-bearing for any claim.) -/
def tanks_other_attribute_names : List String :=
  ["get_tank_names", "get_tank_value",
   "__class__", "__delattr__", "__dict__", "__dir__", "__doc__", "__eq__",
   "__format__", "__ge__", "__getattribute__", "__gt__", "__hash__",
   "__init__", "__init_subclass__", "__le__", "__lt__", "__module__",
   "__ne__", "__new__", "__reduce__", "__reduce_ex__", "__repr__",
   "__setattr__", "__sizeof__", "__str__", "__subclasshook__",
   "__weakref__"]

/-- Outcome of getattr(self, tank_name) inside Tanks.get_tank_value: one
of the nine tank dicts; some other existing attribute, in which case
getattr succeeds and the raw attribute — a bound method or class
attribute, not a tank dict — is returned to the caller with nothing
logged; or an AttributeError, which the except branch logs and converts
into the degraded default dict. -/
inductive TankLookup
  | tankDict (value : TankValue)
  | otherAttribute (name : String)
  | degradedDefault
  deriving DecidableEq, Repr

/-- Tanks.get_tank_value modelled in full, keeping the three getattr
outcomes apart. -/
def tanks_getattr (tank_name : String) : TankLookup :=
  if tank_name ∈ get_tank_names then
    TankLookup.tankDict (get_tank_value tank_name)
  else if tank_name ∈ tanks_other_attribute_names then
    TankLookup.otherAttribute tank_name
  else TankLookup.degradedDefault

/-! ## Inventory (class Inventory).  Counts are Python ints (unbounded,
signed), so they are modelled as Int; they start at zero. -/
structure Inventory where
  dunkers : Int
  pilsner : Int
  red_helles : Int
  deriving DecidableEq, Repr

def Inventory.get (inv : Inventory) : BeerType → Int
  | .dunkers => inv.dunkers
  | .pilsner => inv.pilsner
  | .red_helles => inv.red_helles

def Inventory.add (inv : Inventory) (bt : BeerType) (n : Int) : Inventory :=
  match bt with
  | .dunkers => { inv with dunkers := inv.dunkers + n }
  | .pilsner => { inv with pilsner := inv.pilsner + n }
  | .red_helles => { inv with red_helles := inv.red_helles + n }

def Inventory.sub (inv : Inventory) (bt : BeerType) (n : Int) : Inventory :=
  match bt with
  | .dunkers => { inv with dunkers := inv.dunkers - n }
  | .pilsner => { inv with pilsner := inv.pilsner - n }
  | .red_helles => { inv with red_helles := inv.red_helles - n }

/-! ## Batch (class Batch) -/

structure Batch where
  id : String
  beer_type : BeerType
  volume : Nat
  num_bottles_to_inv : Option Nat
  bottles_put_in_inventory : Bool
  phase_current : Phase
  phase_current_tank : String
  phase_last_completed : Phase
  time_start_phase1 : Option DateTime
  time_end_phase1 : Option DateTime
  time_start_phase2 : Option DateTime
  time_end_phase2 : Option DateTime
  time_start_phase3 : Option DateTime
  time_end_phase3 : Option DateTime
  time_start_phase4 : Option DateTime
  time_end_phase4 : Option DateTime
  deriving DecidableEq, Repr

/-- Batch.__init__ (the sentinel empty strings become none / unset / ""). -/
def Batch.init (batch_id : String) (beer_type : BeerType) (volume : Nat) :
    Batch :=
  { id := batch_id, beer_type := beer_type, volume := volume
    num_bottles_to_inv := none, bottles_put_in_inventory := false
    phase_current := .unset, phase_current_tank := ""
    phase_last_completed := .unset
    time_start_phase1 := none, time_end_phase1 := none
    time_start_phase2 := none, time_end_phase2 := none
    time_start_phase3 := none, time_end_phase3 := none
    time_start_phase4 := none, time_end_phase4 := none }

/-- Phase durations in minutes: duration_phase1 = 5 h, duration_phase2 =
672 h, duration_phase3 = 336 h, duration_phase4 = (1/60)*volume*2 h =
volume*2 minutes. -/
def duration_phase1_min : Nat := 5 * 60

def duration_phase2_min : Nat := 672 * 60

def duration_phase3_min : Nat := 336 * 60

def duration_phase4_min (volume : Nat) : Nat := volume * 2

/-- Batch.put_bottles_in_inventory: one-shot credit guarded by the
bottles_put_in_inventory flag. -/
def put_bottles_in_inventory (b : Batch) (inv : Inventory) :
    Batch × Inventory :=
  if b.bottles_put_in_inventory then (b, inv)
  else
    let n := b.volume * 2
    ({ b with bottles_put_in_inventory := true, num_bottles_to_inv := some n },
     inv.add b.beer_type (n : Int))

/-- Batch.set_phase_start_end_datetimes, with datetime.now() passed in
explicitly as now. -/
def set_phase_start_end_datetimes (b : Batch) (inv : Inventory)
    (now : DateTime) : Batch × Inventory :=
  match b.phase_current with
  | .hot_brewing =>
      ({ b with time_start_phase1 := some now
                time_end_phase1 := some (addMinutes now duration_phase1_min)
                phase_last_completed := .unset }, inv)
  | .ferm =>
      ({ b with time_start_phase2 := some now
                time_end_phase2 := some (addMinutes now duration_phase2_min)
                phase_last_completed := .hot_brewing }, inv)
  | .cond =>
      ({ b with time_start_phase3 := some now
                time_end_phase3 := some (addMinutes now duration_phase3_min)
                phase_last_completed := .ferm }, inv)
  | .bottling =>
      ({ b with time_start_phase4 := some now
                time_end_phase4 :=
                  some (addMinutes now (duration_phase4_min b.volume))
                phase_last_completed := .cond }, inv)
  | .finished =>
      put_bottles_in_inventory { b with phase_last_completed := .bottling } inv
  | .unset => (b, inv)

/-! ## Orders (the customer_orders dictionary entries) -/

structure Order where
  invoice_number : String
  customer : String
  date_required : String
  recipe : BeerType
  gyle_number : String
  quantity_ordered : Nat
  dispatched : String
  deriving DecidableEq, Repr

/-! ## Aggregate state (app.config), and Python dicts as association lists
preserving insertion order. -/
structure SysState where
  batches : List (String × Batch)
  orders : List (String × Order)
  inventory : Inventory
  deriving DecidableEq, Repr

def init_state : SysState := ⟨[], [], ⟨0, 0, 0⟩⟩

def lookupA {α : Type} : List (String × α) → String → Option α
  | [], _ => none
  | p :: l, k => if p.1 = k then some p.2 else lookupA l k

def updateA {α : Type} (l : List (String × α)) (k : String) (v : α) :
    List (String × α) :=
  l.map (fun p => if p.1 = k then (k, v) else p)

def eraseA {α : Type} (l : List (String × α)) (k : String) :
    List (String × α) :=
  l.filter (fun p => p.1 ≠ k)

/-! ## Handler add_delete_batch -/

def add_batch (s : SysState) (batch_id : String) (beer_type : BeerType)
    (volume : Nat) : SysState :=
  if (lookupA s.batches batch_id).isSome then s
  else { s with batches :=
          s.batches ++ [(batch_id, Batch.init batch_id beer_type volume)] }

def delete_batch (s : SysState) (batch_id : String) : SysState :=
  { s with batches := eraseA s.batches batch_id }

/-! ## Handler change_batchs_phase -/

/-- The used_tanks list built by scanning all batches for a nonempty
phase_current_tank (used both by change_batchs_phase and plan_production). -/
def used_tanks (batches : List (String × Batch)) : List String :=
  (batches.filter (fun p => p.2.phase_current_tank ≠ "")).map
    (·.2.phase_current_tank)

/-- available_tanks as computed inside change_batchs_phase: all tank names
not in used_tanks, plus the own current tank of the requesting batch when set. -/
def available_tanks_for (batches : List (String × Batch)) (b : Batch) :
    List String :=
  (get_tank_names.filter (fun t => t ∉ used_tanks batches)) ++
    (if b.phase_current_tank ≠ "" then [b.phase_current_tank] else [])

inductive ChangeResult
  | keyError
  | noAction
  | tankUnavailable (available : List String)
  | wrongTank
  | changed
  deriving DecidableEq, Repr

/-- The mutation performed once change_batch is True: phase_current and
phase_current_tank are set from the form inputs and
set_phase_start_end_datetimes runs (crediting the inventory on finished). -/
def apply_phase_change (s : SysState) (id_input : String) (b : Batch)
    (phase_input : PhaseInput) (tank_input : String) (now : DateTime) :
    SysState :=
  let b1 := { b with phase_current := phase_input.toPhase
                     phase_current_tank := tank_input }
  let r := set_phase_start_end_datetimes b1 s.inventory now
  { s with batches := updateA s.batches id_input r.1, inventory := r.2 }

/-- Handler change_batchs_phase on a POST carrying id_input, phase_input
and tank_input.  batches[id_input] on an unknown id raises an uncaught
KeyError (keyError); a batch already finished fails the outer guard and the
handler falls through to rendering the page with no message (noAction). -/
def change_batchs_phase (s : SysState) (id_input : String)
    (phase_input : PhaseInput) (tank_input : String) (now : DateTime) :
    ChangeResult × SysState :=
  match lookupA s.batches id_input with
  | none => (ChangeResult.keyError, s)
  | some b =>
    if b.phase_current = Phase.finished then (ChangeResult.noAction, s)
    else if (phase_input = PhaseInput.hot_brewing ∨
             phase_input = PhaseInput.bottling ∨
             phase_input = PhaseInput.finished) ∧
            tank_input = "not applicable" then
      (ChangeResult.changed,
       apply_phase_change s id_input b phase_input tank_input now)
    else if (phase_input = PhaseInput.ferm ∨
             phase_input = PhaseInput.cond) ∧
            tank_input ≠ "not applicable" then
      if tank_input ∉ available_tanks_for s.batches b then
        (ChangeResult.tankUnavailable (available_tanks_for s.batches b), s)
      else
        let tank_value := get_tank_value tank_input
        if phase_input.toStr ∈ tank_value.capability ∧
           b.volume ≤ tank_value.volume then
          (ChangeResult.changed,
           apply_phase_change s id_input b phase_input tank_input now)
        else (ChangeResult.wrongTank, s)
    else (ChangeResult.wrongTank, s)

/-! ## Handler register_dispatch_delete_order -/

def register_order (s : SysState) (invoice customer date_required : String)
    (recipe : BeerType) (gyle : String) (quantity : Nat) : SysState :=
  if (lookupA s.orders invoice).isSome then s
  else { s with orders := s.orders ++
          [(invoice, { invoice_number := invoice, customer := customer
                       date_required := date_required, recipe := recipe
                       gyle_number := gyle, quantity_ordered := quantity
                       dispatched := "" })] }

inductive DispatchResult
  | unknownOrderNoOp
  | alreadyDispatched
  | insufficientStock (beer : BeerType)
  | dispatched
  deriving DecidableEq, Repr

/-- The dispatch branch of register_dispatch_delete_order: an unknown
invoice number fails the elif membership guard (nothing happens); an order
already dispatched returns a message; otherwise the inventory count for the
recipe of the order is compared with the quantity ordered and either decremented
together with marking the order dispatched, or a not-enough-bottles message
is returned with nothing changed. -/
def dispatch_order (s : SysState) (invoice : String) :
    DispatchResult × SysState :=
  match lookupA s.orders invoice with
  | none => (DispatchResult.unknownOrderNoOp, s)
  | some o =>
    if o.dispatched = "dispatched" then (DispatchResult.alreadyDispatched, s)
    else
      if (o.quantity_ordered : Int) ≤ s.inventory.get o.recipe then
        (DispatchResult.dispatched,
         { s with
             inventory := s.inventory.sub o.recipe (o.quantity_ordered : Int)
             orders := updateA s.orders invoice
               { o with dispatched := "dispatched" } })
      else (DispatchResult.insufficientStock o.recipe, s)

def delete_order (s : SysState) (invoice : String) : SysState :=
  { s with orders := eraseA s.orders invoice }

/-! ## Reachability: the states the running program can be in, starting from
the startup state and applying the mutating handlers. -/
inductive Step : SysState → SysState → Prop
  | addBatch (s : SysState) (batch_id : String) (bt : BeerType) (vol : Nat) :
      Step s (add_batch s batch_id bt vol)
  | deleteBatch (s : SysState) (batch_id : String) :
      Step s (delete_batch s batch_id)
  | changePhase (s : SysState) (id_input : String) (ph : PhaseInput)
      (tk : String) (now : DateTime) :
      Step s (change_batchs_phase s id_input ph tk now).2
  | registerOrder (s : SysState) (invoice customer date : String)
      (recipe : BeerType) (gyle : String) (quantity : Nat) :
      Step s (register_order s invoice customer date recipe gyle quantity)
  | dispatchOrder (s : SysState) (invoice : String) :
      Step s (dispatch_order s invoice).2
  | deleteOrder (s : SysState) (invoice : String) :
      Step s (delete_order s invoice)

inductive Reachable : SysState → Prop
  | init : Reachable init_state
  | step {s s' : SysState} : Reachable s → Step s s' → Reachable s'

/-! ## Handler plan_production.  The external forecast
(monthly_sales_forecasts[beer].predicted_mean[key], cast with int()) is an
abstract lookup f from beer type and first-of-month date key to an Int. -/

/-- The projected finish of a batch, computed in plan_production from
whichever time_end_phaseN field is set, checked in the order 4, 3, 2, 1,
each earlier phase adding the fixed remaining durations. -/
def projected_end (b : Batch) : Option DateTime :=
  match b.time_end_phase4 with
  | some e => some e
  | none =>
    match b.time_end_phase3 with
    | some e => some (addMinutes e (duration_phase4_min b.volume))
    | none =>
      match b.time_end_phase2 with
      | some e =>
          some (addMinutes (addMinutes e duration_phase3_min)
                 (duration_phase4_min b.volume))
      | none =>
        match b.time_end_phase1 with
        | some e =>
            some (addMinutes
                   (addMinutes (addMinutes e duration_phase2_min)
                     duration_phase3_min)
                   (duration_phase4_min b.volume))
        | none => none

/-- The incre_month update at the end of each loop iteration: incremented
and reset to 1 when it reaches 13. -/
def increment_month (m : Nat) : Nat :=
  if m + 1 = 13 then 1 else m + 1

/-- The month number the bucket at index i is compared against, starting
from the current month. -/
def month_at (m : Nat) : Nat → Nat
  | 0 => m
  | i + 1 => increment_month (month_at m i)

/-- The addition of one batch to the bucket at index i (0 = this_month,
1 = next_month, 2 = third_month): volume*2 bottles when the month number of the projected
end equals the (wrapped) incremented month.  Only the month number
is compared; the year is not consulted. -/
def batch_contribution (nowMonth : Nat) (b : Batch) (i : Nat) : Nat :=
  if b.bottles_put_in_inventory then 0
  else
    match projected_end b with
    | none => 0
    | some d => if d.month = month_at nowMonth i then b.volume * 2 else 0

/-- three_month_end_inv[bt][bucket i]: contributions of all batches plus,
for this_month only, the current inventory count. -/
def three_month_end_inv (now : DateTime) (batches : List (String × Batch))
    (inv : Inventory) (bt : BeerType) (i : Nat) : Int :=
  (batches.foldl
    (fun acc p =>
      if p.2.beer_type = bt then acc + (batch_contribution now.month p.2 i : Int)
      else acc) 0)
  + (if i = 0 then inv.get bt else 0)

/-- dt1st_month: first day of the current month. -/
def forecast_key1 (now : DateTime) : DateTime :=
  ⟨now.year, now.month, 1, 0⟩

/-- next_datetime: current datetime plus the number of days of the current
month (monthrange). -/
def planner_next_datetime (now : DateTime) : DateTime :=
  addDays now (monthLength now.year now.month)

/-- dt2nd_month: first day of the month of next_datetime. -/
def forecast_key2 (now : DateTime) : DateTime :=
  ⟨(planner_next_datetime now).year, (planner_next_datetime now).month, 1, 0⟩

/-- third_datetime: next_datetime plus the number of days of its month. -/
def planner_third_datetime (now : DateTime) : DateTime :=
  addDays (planner_next_datetime now)
    (monthLength (planner_next_datetime now).year
      (planner_next_datetime now).month)

/-- dt3rd_month: first day of the month of third_datetime. -/
def forecast_key3 (now : DateTime) : DateTime :=
  ⟨(planner_third_datetime now).year, (planner_third_datetime now).month, 1, 0⟩

/-- three_month_forecast[bt]: the forecast values at the three date keys. -/
def three_month_forecast (f : BeerType → DateTime → Int) (now : DateTime)
    (bt : BeerType) (i : Nat) : Int :=
  match i with
  | 0 => f bt (forecast_key1 now)
  | 1 => f bt (forecast_key2 now)
  | _ => f bt (forecast_key3 now)

/-- diff_3months_forecast_actual[bt] = finished-inventory total minus
forecast total over the three buckets. -/
def diff_beer (now : DateTime) (batches : List (String × Batch))
    (inv : Inventory) (f : BeerType → DateTime → Int) (bt : BeerType) : Int :=
  (three_month_end_inv now batches inv bt 0
   + three_month_end_inv now batches inv bt 1
   + three_month_end_inv now batches inv bt 2)
  - (three_month_forecast f now bt 0
     + three_month_forecast f now bt 1
     + three_month_forecast f now bt 2)

/-- Python min over the diff dictionary: iteration order dunkers, pilsner,
red_helles; a later entry replaces the current minimum only when strictly
smaller, so the first minimum wins. -/
def select_min_beer (g : BeerType → Int) : BeerType :=
  let best1 := BeerType.dunkers
  let best2 := if g BeerType.pilsner < g best1 then BeerType.pilsner else best1
  if g BeerType.red_helles < g best2 then BeerType.red_helles else best2

/-- produce_beer as computed by plan_production. -/
def produce_beer (now : DateTime) (batches : List (String × Batch))
    (inv : Inventory) (f : BeerType → DateTime → Int) : BeerType :=
  select_min_beer (diff_beer now batches inv f)

/-- available_tanks as computed in plan_production (no own-tank append). -/
def plan_available_tanks (batches : List (String × Batch)) : List String :=
  get_tank_names.filter (fun t => t ∉ used_tanks batches)

/-- capable_tanks: the available tanks with ferm capability, paired with
their volumes, in tank-name (dict-insertion) order. -/
def capable_tanks (batches : List (String × Batch)) : List (String × Nat) :=
  (plan_available_tanks batches).filterMap
    (fun t =>
      if "ferm" ∈ (get_tank_value t).capability then
        some (t, (get_tank_value t).volume)
      else none)

/-- Python max over the capable_tanks dict keyed by volume: a later entry
replaces the current maximum only when strictly larger, so the first
maximum wins.  none models the explicit no-capable-tank report string. -/
def use_tank (batches : List (String × Batch)) : Option String :=
  match capable_tanks batches with
  | [] => none
  | x :: xs =>
      some ((xs.foldl (fun best p => if best.2 < p.2 then p else best) x).1)

/-! ## Definitions modelled from the wording of the spec, for refinement
comparisons (these are NOT translations of the source). -/

/-- Modelled from the spec: recommend the beer type with the most negative
deficit, ties broken by the fixed beer-type ordering dunkers (dunkel),
pilsner, red_helles. -/
def spec_select_beer (g : BeerType → Int) : BeerType :=
  if g BeerType.dunkers ≤ g BeerType.pilsner ∧
     g BeerType.dunkers ≤ g BeerType.red_helles then BeerType.dunkers
  else if g BeerType.pilsner ≤ g BeerType.red_helles then BeerType.pilsner
  else BeerType.red_helles

/-- Modelled from the spec: the tanks the planner should consider — tanks
whose capability set includes ferm and that are not occupied by any active
(non-finished) batch — listed in the fixed alphabetical tank-name order. -/
def spec_tank_candidates (batches : List (String × Batch)) : List String :=
  get_tank_names.filter
    (fun t =>
      "ferm" ∈ (get_tank_value t).capability ∧
      ∀ p ∈ batches,
        p.2.phase_current ≠ Phase.finished → p.2.phase_current_tank ≠ t)

/-- The notion used by claim C4: the tank named in a request is currently
held by some active (non-finished) batch other than the requesting one. -/
def held_by_other_active (s : SysState) (id_input tank_input : String) :
    Prop :=
  ∃ p ∈ s.batches, p.1 ≠ id_input ∧ p.2.phase_current ≠ Phase.finished ∧
    p.2.phase_current_tank = tank_input

/-! ## Helper lemmas about association lists -/

def realTank (t : String) : Prop := t ≠ "" ∧ t ≠ "not applicable"

def WFB (b : Batch) : Prop :=
  (b.phase_current_tank = "" ∨ b.phase_current_tank = "not applicable" ∨
    (b.phase_current_tank ∈ get_tank_names ∧
     (b.phase_current = Phase.ferm ∨ b.phase_current = Phase.cond))) ∧
  ((b.phase_current = Phase.ferm ∨ b.phase_current = Phase.cond) →
    b.phase_current_tank ∈ get_tank_names ∧
    b.phase_current.toStr ∈
      (get_tank_value b.phase_current_tank).capability ∧
    b.volume ≤ (get_tank_value b.phase_current_tank).volume)

def WF (s : SysState) : Prop :=
  (∀ bt, 0 ≤ s.inventory.get bt) ∧
  (∀ p ∈ s.batches, WFB p.2) ∧
  (∀ p ∈ s.batches, ∀ q ∈ s.batches, p.1 ≠ q.1 →
    realTank p.2.phase_current_tank →
    p.2.phase_current_tank ≠ q.2.phase_current_tank) ∧
  (s.batches.map Prod.fst).Nodup

/-- Example datetime used by concrete scenarios. -/
def d0 : DateTime := ⟨2026, 1, 15, 600⟩

def batch_b1 : Batch := Batch.init "b1" BeerType.dunkers 100

def state_one_batch : SysState := ⟨[("b1", batch_b1)], [], ⟨0, 0, 0⟩⟩

/-- A finished example batch and state for the C7 scenarios. -/
def batch_fin : Batch :=
  { Batch.init "bf" BeerType.pilsner 300 with
      phase_current := Phase.finished
      phase_current_tank := "not applicable"
      phase_last_completed := Phase.bottling
      bottles_put_in_inventory := true
      num_bottles_to_inv := some 600 }

def state_finished : SysState := ⟨[("bf", batch_fin)], [], ⟨0, 600, 0⟩⟩

/-- States used by the C3 witness: add a pilsner batch, finish it (which
credits 200 bottles), then register a pending order for 50 bottles. -/
def state_c3a : SysState := add_batch init_state "wb" BeerType.pilsner 100

def state_c3b : SysState :=
  (change_batchs_phase state_c3a "wb" PhaseInput.finished "not applicable"
    d0).2

def state_c3c : SysState :=
  register_order state_c3b "901" "Alice" "01/02/2026" BeerType.pilsner "7" 50

def order_c3 : Order :=
  { invoice_number := "901", customer := "Alice"
    date_required := "01/02/2026", recipe := BeerType.pilsner
    gyle_number := "7", quantity_ordered := 50, dispatched := "" }

def state_c4 : SysState := add_batch init_state "c4" BeerType.dunkers 500

def batch_c4 : Batch := Batch.init "c4" BeerType.dunkers 500

/-- Inventory of the C5 scenario: projected totals dunkel 10, pilsner 40,
red_helles 5 (no in-flight batches, so the projection is the seeded
inventory alone). -/
def inv_c5 : Inventory := ⟨10, 40, 5⟩

/-- Forecast of the C5 scenario: three-month totals dunkel 50, pilsner 30,
red_helles 20, concentrated on the current-month key. -/
def forecast_c5 : BeerType → DateTime → Int :=
  fun bt d =>
    if d = forecast_key1 d0 then
      match bt with
      | BeerType.dunkers => 50
      | BeerType.pilsner => 30
      | BeerType.red_helles => 20
    else 0

/-- The planner datetime of the C6 counterexample: 31 January 2026. -/
def dt_eom : DateTime := ⟨2026, 1, 31, 600⟩

/-- A batch whose bottling already ended on 5 February 2025, a year before
the planning run of the C6 counterexample. -/
def batch_stale : Batch :=
  { Batch.init "bs" BeerType.dunkers 50 with
      phase_current := Phase.bottling
      phase_current_tank := "not applicable"
      phase_last_completed := Phase.cond
      time_end_phase4 := some ⟨2025, 2, 5, 0⟩ }

theorem lookupA_mem {α : Type} {l : List (String × α)} {k : String} {v : α}
    (h : lookupA l k = some v) : (k, v) ∈ l := by
  induction l with
  | nil => simp [lookupA] at h
  | cons p l ih =>
    rw [lookupA] at h
    split at h
    · rename_i hk
      cases h
      cases p
      simp_all
    · exact List.mem_cons_of_mem _ (ih h)

theorem lookupA_eq_none {α : Type} {l : List (String × α)} {k : String} :
    lookupA l k = none ↔ ∀ p ∈ l, p.1 ≠ k := by
  induction l with
  | nil => simp [lookupA]
  | cons p l ih =>
    by_cases hk : p.1 = k
    · simp [lookupA, hk]
    · simp [lookupA, hk, ih]

theorem lookupA_of_mem_nodup {α : Type} {l : List (String × α)}
    (hnd : (l.map Prod.fst).Nodup) {p : String × α} (hp : p ∈ l) :
    lookupA l p.1 = some p.2 := by
  induction l with
  | nil => cases hp
  | cons a l ih =>
    simp only [List.map_cons, List.nodup_cons] at hnd
    rcases List.mem_cons.mp hp with h | h
    · subst h
      simp [lookupA]
    · have hne : a.1 ≠ p.1 := by
        intro he
        exact hnd.1 (he ▸ List.mem_map_of_mem Prod.fst h)
      simp only [lookupA, if_neg hne]
      exact ih hnd.2 h

theorem lookupA_updateA_self {α : Type} {l : List (String × α)} {k : String}
    {b : α} (v : α) (h : lookupA l k = some b) :
    lookupA (updateA l k v) k = some v := by
  induction l with
  | nil => simp [lookupA] at h
  | cons p l ih =>
    by_cases hk : p.1 = k
    · simp [updateA, lookupA, hk]
    · simp only [lookupA, if_neg hk] at h
      simpa [updateA, lookupA, hk] using ih h

theorem mem_updateA {α : Type} {l : List (String × α)} {k : String} {v : α}
    {p : String × α} (h : p ∈ updateA l k v) :
    p = (k, v) ∨ (p ∈ l ∧ p.1 ≠ k) := by
  unfold updateA at h
  rcases List.mem_map.mp h with ⟨q, hq, he⟩
  by_cases hk : q.1 = k
  · left
    rw [← he]
    simp [hk]
  · right
    rw [← he]
    simp only [if_neg hk]
    exact ⟨hq, hk⟩

theorem map_fst_updateA {α : Type} (l : List (String × α)) (k : String)
    (v : α) : (updateA l k v).map Prod.fst = l.map Prod.fst := by
  unfold updateA
  rw [List.map_map]
  apply List.map_congr_left
  intro p _
  by_cases h : p.1 = k <;> simp [h]

theorem mem_eraseA {α : Type} {l : List (String × α)} {k : String}
    {p : String × α} (h : p ∈ eraseA l k) : p ∈ l :=
  List.mem_of_mem_filter h

/-! ## Helper lemmas about the tank catalog -/

theorem get_tank_value_default {t : String} (h : t ∉ get_tank_names) :
    get_tank_value t = ⟨[""], 0⟩ := by
  simp only [get_tank_names, List.mem_cons, List.not_mem_nil, or_false,
    not_or] at h
  obtain ⟨h1, h2, h3, h4, h5, h6, h7, h8, h9⟩ := h
  simp [get_tank_value, h1, h2, h3, h4, h5, h6, h7, h8, h9]

theorem mem_names_of_ferm_cond {t s : String}
    (hs : s = "ferm" ∨ s = "cond")
    (h : s ∈ (get_tank_value t).capability) : t ∈ get_tank_names := by
  by_contra hc
  rw [get_tank_value_default hc] at h
  rcases hs with h' | h' <;> subst h' <;> simp at h

/-! ## Helper lemmas about used and available tanks -/

theorem mem_used_tanks {batches : List (String × Batch)} {t : String} :
    t ∈ used_tanks batches ↔
      ∃ p ∈ batches, p.2.phase_current_tank ≠ "" ∧
        p.2.phase_current_tank = t := by
  unfold used_tanks
  simp only [List.mem_map, List.mem_filter, decide_not]
  constructor
  · rintro ⟨p, ⟨hp, hne⟩, ht⟩
    exact ⟨p, hp, by simpa using hne, ht⟩
  · rintro ⟨p, hp, hne, ht⟩
    exact ⟨p, ⟨hp, by simpa using hne⟩, ht⟩

theorem mem_available_iff {batches : List (String × Batch)} {b : Batch}
    {t : String} :
    t ∈ available_tanks_for batches b ↔
      (t ∈ get_tank_names ∧ t ∉ used_tanks batches) ∨
      (b.phase_current_tank ≠ "" ∧ t = b.phase_current_tank) := by
  unfold available_tanks_for
  by_cases hb : b.phase_current_tank = "" <;>
    simp [List.mem_append, List.mem_filter, hb]

/-! ## Helper lemmas about the inventory and phase-setting -/

theorem Inventory.get_add_self (inv : Inventory) (bt : BeerType) (n : Int) :
    (inv.add bt n).get bt = inv.get bt + n := by
  cases bt <;> rfl

theorem Inventory.get_add_other (inv : Inventory) {bt bt' : BeerType}
    (n : Int) (h : bt' ≠ bt) : (inv.add bt n).get bt' = inv.get bt' := by
  cases bt <;> cases bt' <;> first | rfl | exact absurd rfl h

theorem Inventory.get_sub_self (inv : Inventory) (bt : BeerType) (n : Int) :
    (inv.sub bt n).get bt = inv.get bt - n := by
  cases bt <;> rfl

theorem Inventory.get_sub_other (inv : Inventory) {bt bt' : BeerType}
    (n : Int) (h : bt' ≠ bt) : (inv.sub bt n).get bt' = inv.get bt' := by
  cases bt <;> cases bt' <;> first | rfl | exact absurd rfl h

/-- set_phase_start_end_datetimes leaves the identifying fields, the phase
and the tank of the batch unchanged. -/
theorem set_phase_fields (b : Batch) (inv : Inventory) (now : DateTime) :
    (set_phase_start_end_datetimes b inv now).1.phase_current =
        b.phase_current ∧
    (set_phase_start_end_datetimes b inv now).1.phase_current_tank =
        b.phase_current_tank ∧
    (set_phase_start_end_datetimes b inv now).1.volume = b.volume ∧
    (set_phase_start_end_datetimes b inv now).1.beer_type = b.beer_type := by
  cases hb : b.phase_current <;>
    simp only [set_phase_start_end_datetimes, hb, put_bottles_in_inventory] <;>
    (try split) <;> simp

/-- set_phase_start_end_datetimes changes the inventory only when the
current phase is finished and the credited flag was not yet set, in which
case it adds volume*2 bottles to the beer type of the batch. -/
theorem set_phase_inventory (b : Batch) (inv : Inventory) (now : DateTime) :
    (set_phase_start_end_datetimes b inv now).2 = inv ∨
    (b.phase_current = Phase.finished ∧
     b.bottles_put_in_inventory = false ∧
     (set_phase_start_end_datetimes b inv now).2 =
       inv.add b.beer_type ((b.volume * 2 : Nat) : Int)) := by
  cases hb : b.phase_current <;>
    simp only [set_phase_start_end_datetimes, hb, put_bottles_in_inventory] <;>
    try exact Or.inl trivial
  split
  · exact Or.inl rfl
  · rename_i hflag
    refine Or.inr ⟨by trivial, by simpa using hflag, ?_⟩
    rfl

/-- set_phase_start_end_datetimes on a finished, not-yet-credited batch:
exact credit and flag update. -/
theorem set_phase_finished_credit (b : Batch) (inv : Inventory)
    (now : DateTime) (hph : b.phase_current = Phase.finished)
    (hflag : b.bottles_put_in_inventory = false) :
    (set_phase_start_end_datetimes b inv now).2 =
      inv.add b.beer_type ((b.volume * 2 : Nat) : Int) ∧
    (set_phase_start_end_datetimes b inv now).1.bottles_put_in_inventory =
      true := by
  simp [set_phase_start_end_datetimes, hph, put_bottles_in_inventory, hflag]

/-! ## The reachability invariant -/

theorem wf_init : WF init_state := by
  refine ⟨?_, ?_, ?_, ?_⟩ <;> simp [init_state]
  intro bt
  cases bt <;> simp [Inventory.get]

theorem wf_add_batch {s : SysState} (h : WF s) (batch_id : String)
    (bt : BeerType) (vol : Nat) : WF (add_batch s batch_id bt vol) := by
  obtain ⟨hinv, hwfb, hpair, hnd⟩ := h
  unfold add_batch
  split
  · exact ⟨hinv, hwfb, hpair, hnd⟩
  · rename_i hnew
    have hnone : lookupA s.batches batch_id = none := by
      cases hl : lookupA s.batches batch_id with
      | none => rfl
      | some b => rw [hl] at hnew; simp at hnew
    refine ⟨hinv, ?_, ?_, ?_⟩
    · intro p hp
      rcases List.mem_append.mp hp with h' | h'
      · exact hwfb p h'
      · simp only [List.mem_singleton] at h'
        subst h'
        constructor
        · left; rfl
        · intro hc; rcases hc with hc | hc <;> simp [Batch.init] at hc
    · intro p hp q hq hne hreal
      rcases List.mem_append.mp hp with hp' | hp' <;>
        rcases List.mem_append.mp hq with hq' | hq'
      · exact hpair p hp' q hq' hne hreal
      · simp only [List.mem_singleton] at hq'
        subst hq'
        intro he
        exact hreal.1 he
      · simp only [List.mem_singleton] at hp'
        subst hp'
        exact absurd rfl hreal.1
      · simp only [List.mem_singleton] at hp' hq'
        subst hp'; subst hq'
        exact absurd rfl hne
    · rw [List.map_append, List.nodup_append]
      refine ⟨hnd, by simp, ?_⟩
      intro a ha hb
      simp only [List.map_cons, List.map_nil, List.mem_singleton] at hb
      subst hb
      rcases List.mem_map.mp ha with ⟨p, hp, hfst⟩
      exact (lookupA_eq_none.mp hnone p hp) hfst

theorem wf_delete_batch {s : SysState} (h : WF s) (batch_id : String) :
    WF (delete_batch s batch_id) := by
  obtain ⟨hinv, hwfb, hpair, hnd⟩ := h
  refine ⟨hinv, ?_, ?_, ?_⟩
  · intro p hp
    exact hwfb p (mem_eraseA hp)
  · intro p hp q hq hne hreal
    exact hpair p (mem_eraseA hp) q (mem_eraseA hq) hne hreal
  · exact (List.filter_sublist s.batches).map Prod.fst |>.nodup hnd

theorem wf_register_order {s : SysState} (h : WF s)
    (invoice customer date : String) (recipe : BeerType) (gyle : String)
    (quantity : Nat) :
    WF (register_order s invoice customer date recipe gyle quantity) := by
  obtain ⟨hinv, hwfb, hpair, hnd⟩ := h
  unfold register_order
  split
  · exact ⟨hinv, hwfb, hpair, hnd⟩
  · exact ⟨hinv, hwfb, hpair, hnd⟩

theorem wf_delete_order {s : SysState} (h : WF s) (invoice : String) :
    WF (delete_order s invoice) := h

theorem wf_dispatch_order {s : SysState} (h : WF s) (invoice : String) :
    WF (dispatch_order s invoice).2 := by
  obtain ⟨hinv, hwfb, hpair, hnd⟩ := h
  unfold dispatch_order
  cases ho : lookupA s.orders invoice with
  | none => exact ⟨hinv, hwfb, hpair, hnd⟩
  | some o =>
    simp only
    split
    · exact ⟨hinv, hwfb, hpair, hnd⟩
    · split
      · rename_i hq
        refine ⟨?_, hwfb, hpair, hnd⟩
        intro bt
        by_cases hbt : bt = o.recipe
        · subst hbt
          simp only [Inventory.get_sub_self]
          omega
        · rw [Inventory.get_sub_other _ _ hbt]
          exact hinv bt
      · exact ⟨hinv, hwfb, hpair, hnd⟩

theorem empty_not_tank_name : "" ∉ get_tank_names := by decide

theorem na_not_tank_name : "not applicable" ∉ get_tank_names := by decide

/-- If a tank selected for a ferm or cond change is in the handler-computed
available_tanks list, then the only batch possibly holding it is the
requesting batch itself. -/
theorem holders_of_available {s : SysState} (hwf : WF s) {id_input : String}
    {b : Batch} (hb : lookupA s.batches id_input = some b)
    {tank_input : String}
    (hav : tank_input ∈ available_tanks_for s.batches b)
    (hna : tank_input ≠ "not applicable") :
    ∀ q ∈ s.batches, q.2.phase_current_tank = tank_input →
      q.1 = id_input := by
  obtain ⟨_, _, hpair, _⟩ := hwf
  intro q hq hqt
  rcases mem_available_iff.mp hav with ⟨hmem, hnotused⟩ | ⟨hbne, heq⟩
  · exfalso
    apply hnotused
    refine mem_used_tanks.mpr ⟨q, hq, ?_, hqt⟩
    rw [hqt]
    intro he
    rw [he] at hmem
    exact empty_not_tank_name hmem
  · by_contra hne
    have hself : (id_input, b) ∈ s.batches := lookupA_mem hb
    have := hpair q hq (id_input, b) hself hne
      (by
        refine ⟨?_, ?_⟩
        · rw [hqt, heq]; exact hbne
        · rw [hqt]; exact hna)
    apply this
    rw [hqt, heq]

/-- An accepted phase change preserves the reachability invariant.  The
hypothesis hcase covers the two accepting branches of the handler: the
tankless phases with the not-applicable tank value, and ferm or cond with a
catalog tank of the right capability and capacity held by no other batch. -/
theorem wf_apply_phase_change {s : SysState} (hwf : WF s) {id_input : String}
    {b : Batch} (_hb : lookupA s.batches id_input = some b)
    (ph : PhaseInput) (tank_input : String) (now : DateTime)
    (hcase :
      (tank_input = "not applicable" ∧
        (ph = PhaseInput.hot_brewing ∨ ph = PhaseInput.bottling ∨
         ph = PhaseInput.finished)) ∨
      ((ph = PhaseInput.ferm ∨ ph = PhaseInput.cond) ∧
        tank_input ∈ get_tank_names ∧
        ph.toStr ∈ (get_tank_value tank_input).capability ∧
        b.volume ≤ (get_tank_value tank_input).volume ∧
        (∀ q ∈ s.batches, q.2.phase_current_tank = tank_input →
          q.1 = id_input))) :
    WF (apply_phase_change s id_input b ph tank_input now) := by
  obtain ⟨hinv, hwfb, hpair, hnd⟩ := hwf
  unfold apply_phase_change
  set b1 : Batch :=
    { b with phase_current := ph.toPhase, phase_current_tank := tank_input }
    with hb1
  obtain ⟨hf1, hf2, hf3, hf4⟩ := set_phase_fields b1 s.inventory now
  set b2 := (set_phase_start_end_datetimes b1 s.inventory now).1 with hb2
  have hb2ph : b2.phase_current = ph.toPhase := hf1
  have hb2tk : b2.phase_current_tank = tank_input := hf2
  have hb2vol : b2.volume = b.volume := hf3
  refine ⟨?_, ?_, ?_, ?_⟩
  · rcases set_phase_inventory b1 s.inventory now with he | ⟨_, _, he⟩
    · simp only [he]
      exact hinv
    · simp only [he]
      intro bt
      by_cases hbt : bt = b1.beer_type
      · subst hbt
        rw [Inventory.get_add_self]
        exact Int.add_nonneg (hinv _) (by positivity)
      · rw [Inventory.get_add_other _ _ hbt]
        exact hinv bt
  · intro p hp
    rcases mem_updateA hp with hpe | ⟨hp', hne⟩
    · subst hpe
      simp only [← hb2]
      constructor
      · rcases hcase with ⟨hna, _⟩ | ⟨hph, hmem, _, _, _⟩
        · right; left
          rw [hb2tk, hna]
        · right; right
          refine ⟨by rw [hb2tk]; exact hmem, ?_⟩
          rcases hph with h' | h' <;> subst h' <;>
            simp [hb2ph, PhaseInput.toPhase]
      · intro hfc
        rcases hcase with ⟨hna, hph⟩ | ⟨hph, hmem, hcap, hvol, _⟩
        · exfalso
          rcases hph with h' | h' | h' <;> subst h' <;>
            simp [hb2ph, PhaseInput.toPhase] at hfc
        · refine ⟨by rw [hb2tk]; exact hmem, ?_, ?_⟩
          · rw [hb2tk]
            rcases hph with h' | h' <;> subst h' <;>
              simpa [hb2ph, PhaseInput.toPhase, Phase.toStr,
                PhaseInput.toStr] using hcap
          · rw [hb2vol, hb2tk]
            exact hvol
    · exact hwfb p hp'
  · intro p hp q hq hpq hreal
    rcases mem_updateA hp with hpe | ⟨hp', hpne⟩ <;>
      rcases mem_updateA hq with hqe | ⟨hq', hqne⟩
    · subst hpe; subst hqe
      exact absurd rfl hpq
    · subst hpe
      simp only [← hb2] at hreal ⊢
      rcases hcase with ⟨hna, _⟩ | ⟨_, _, _, _, hhold⟩
      · exfalso
        apply hreal.2
        simp only [hb2tk, hna]
      · intro he
        apply hqne
        apply hhold q hq'
        rw [← he]
        simp only [hb2tk]
    · subst hqe
      simp only [← hb2]
      rcases hcase with ⟨hna, _⟩ | ⟨_, _, _, _, hhold⟩
      · simp only [hb2tk, hna]
        exact hreal.2
      · simp only [hb2tk]
        intro he
        exact hpne (hhold p hp' he)
    · exact hpair p hp' q hq' hpq hreal
  · simp only [map_fst_updateA]
    exact hnd

theorem wf_change_batchs_phase {s : SysState} (hwf : WF s)
    (id_input : String) (ph : PhaseInput) (tk : String) (now : DateTime) :
    WF (change_batchs_phase s id_input ph tk now).2 := by
  unfold change_batchs_phase
  cases hb : lookupA s.batches id_input with
  | none => exact hwf
  | some b =>
    simp only
    split
    · exact hwf
    · split
      · rename_i hcond
        exact wf_apply_phase_change ⟨hwf.1, hwf.2.1, hwf.2.2.1, hwf.2.2.2⟩
          hb ph tk now (Or.inl ⟨hcond.2, hcond.1⟩)
      · split
        · rename_i hcond2
          split
          · exact hwf
          · rename_i hav
            split
            · rename_i hcap
              refine wf_apply_phase_change
                ⟨hwf.1, hwf.2.1, hwf.2.2.1, hwf.2.2.2⟩ hb ph tk now
                (Or.inr ⟨hcond2.1, ?_, hcap.1, hcap.2, ?_⟩)
              · refine mem_names_of_ferm_cond ?_ hcap.1
                rcases hcond2.1 with h' | h' <;> subst h' <;>
                  simp [PhaseInput.toStr]
              · exact holders_of_available hwf hb (not_not.mp hav) hcond2.2
            · exact hwf
        · exact hwf

theorem wf_invariant {s : SysState} (h : Reachable s) : WF s := by
  induction h with
  | init => exact wf_init
  | step _ hstep ih =>
    cases hstep with
    | addBatch batch_id bt vol => exact wf_add_batch ih batch_id bt vol
    | deleteBatch batch_id => exact wf_delete_batch ih batch_id
    | changePhase id_input ph tk now =>
        exact wf_change_batchs_phase ih id_input ph tk now
    | registerOrder invoice customer date recipe gyle quantity =>
        exact wf_register_order ih invoice customer date recipe gyle quantity
    | dispatchOrder invoice => exact wf_dispatch_order ih invoice
    | deleteOrder invoice => exact wf_delete_order ih invoice

/-! ## Behaviour lemmas for change_batchs_phase -/

/-- An unknown batch id makes batches[id_input] raise an uncaught
KeyError: the request dies with a server error and no state changes. -/
theorem change_keyError_eq (s : SysState) (id_input : String)
    (ph : PhaseInput) (tk : String) (now : DateTime)
    (h : lookupA s.batches id_input = none) :
    change_batchs_phase s id_input ph tk now = (ChangeResult.keyError, s) := by
  unfold change_batchs_phase
  rw [h]

/-- A batch already finished fails the outer guard: the handler renders
the normal page, reports nothing and changes nothing. -/
theorem change_finished_noop (s : SysState) (id_input : String) {b : Batch}
    (hb : lookupA s.batches id_input = some b)
    (hfin : b.phase_current = Phase.finished) (ph : PhaseInput) (tk : String)
    (now : DateTime) :
    change_batchs_phase s id_input ph tk now = (ChangeResult.noAction, s) := by
  unfold change_batchs_phase
  rw [hb]
  simp [hfin]

/-- The tankless phases (hot brewing, bottling, finished) with the
not-applicable tank value are always accepted on a non-finished batch. -/
theorem change_accept_na (s : SysState) (id_input : String) {b : Batch}
    (hb : lookupA s.batches id_input = some b)
    (hnf : b.phase_current ≠ Phase.finished) {ph : PhaseInput}
    (hph : ph = PhaseInput.hot_brewing ∨ ph = PhaseInput.bottling ∨
      ph = PhaseInput.finished) (now : DateTime) :
    change_batchs_phase s id_input ph "not applicable" now =
      (ChangeResult.changed,
       apply_phase_change s id_input b ph "not applicable" now) := by
  unfold change_batchs_phase
  rw [hb]
  simp only [if_neg hnf]
  rw [if_pos ⟨hph, by trivial⟩]

/-- In the ferm and cond branch the request is accepted exactly when the
tank is in the handler-computed available list, has the phase in its capability
list, and has capacity at least the batch volume. -/
theorem change_tank_result (s : SysState) (id_input : String) {b : Batch}
    (hb : lookupA s.batches id_input = some b)
    (hnf : b.phase_current ≠ Phase.finished) {ph : PhaseInput}
    (hph : ph = PhaseInput.ferm ∨ ph = PhaseInput.cond) {tk : String}
    (htk : tk ≠ "not applicable") (now : DateTime) :
    (change_batchs_phase s id_input ph tk now).1 = ChangeResult.changed ↔
      (tk ∈ available_tanks_for s.batches b ∧
       ph.toStr ∈ (get_tank_value tk).capability ∧
       b.volume ≤ (get_tank_value tk).volume) := by
  unfold change_batchs_phase
  rw [hb]
  simp only [if_neg hnf]
  rw [if_neg (by
    rintro ⟨hph', -⟩
    rcases hph with h' | h' <;> subst h' <;>
      rcases hph' with h'' | h'' | h'' <;> simp at h'')]
  rw [if_pos ⟨hph, htk⟩]
  by_cases hav : tk ∈ available_tanks_for s.batches b
  · rw [if_neg (not_not_intro hav)]
    by_cases hcv : ph.toStr ∈ (get_tank_value tk).capability ∧
        b.volume ≤ (get_tank_value tk).volume
    · rw [if_pos hcv]
      simp [hav, hcv.1, hcv.2]
    · rw [if_neg hcv]
      simp only [not_and] at hcv
      constructor
      · intro h
        simp at h
      · rintro ⟨-, hc, hv⟩
        exact absurd hv (hcv hc)
  · rw [if_pos hav]
    constructor
    · intro h
      simp at h
    · rintro ⟨hav', -, -⟩
      exact absurd hav' hav

/-- After an accepted change the stored batch has the requested phase and
tank. -/
theorem apply_phase_change_lookup (s : SysState) (id_input : String)
    {b : Batch} (hb : lookupA s.batches id_input = some b) (ph : PhaseInput)
    (tk : String) (now : DateTime) :
    (lookupA (apply_phase_change s id_input b ph tk now).batches
        id_input).map Batch.phase_current = some ph.toPhase ∧
    (lookupA (apply_phase_change s id_input b ph tk now).batches
        id_input).map Batch.phase_current_tank = some tk := by
  unfold apply_phase_change
  simp only
  rw [lookupA_updateA_self _ hb]
  obtain ⟨h1, h2, _, _⟩ := set_phase_fields
    { b with phase_current := ph.toPhase, phase_current_tank := tk }
    s.inventory now
  refine ⟨?_, ?_⟩ <;> simp only [Option.map_some']
  · rw [h1]
  · rw [h2]

/-- Effect of an accepted transition to finished on a not-yet-credited
batch: the inventory is credited volume*2 bottles under the beer type of the
batch and the one-shot flag is set. -/
theorem apply_finished_effect (s : SysState) (id_input : String) {b : Batch}
    (hb : lookupA s.batches id_input = some b)
    (hflag : b.bottles_put_in_inventory = false) (now : DateTime) :
    (apply_phase_change s id_input b PhaseInput.finished "not applicable"
        now).inventory =
      s.inventory.add b.beer_type ((b.volume * 2 : Nat) : Int) ∧
    (lookupA (apply_phase_change s id_input b PhaseInput.finished
        "not applicable" now).batches id_input).map
      Batch.bottles_put_in_inventory = some true := by
  have hcredit := set_phase_finished_credit
    { b with phase_current := PhaseInput.finished.toPhase
             phase_current_tank := "not applicable" } s.inventory now rfl hflag
  constructor
  · show (set_phase_start_end_datetimes _ s.inventory now).2 = _
    exact hcredit.1
  · show (lookupA (updateA s.batches id_input
      (set_phase_start_end_datetimes _ s.inventory now).1) id_input).map
        _ = _
    rw [lookupA_updateA_self _ hb]
    simp only [Option.map_some']
    rw [hcredit.2]

/-- C1: transitioning a batch into finished credits the inventory with
exactly volume*2 bottles under the beer type of the batch exactly once: the
first transition to finished (credited flag still false) performs the
credit, leaves every other count unchanged and sets the flag, while any
later transition request on the now-finished batch is a no-op that leaves
the whole state (in particular every inventory count) unchanged. -/
theorem C1_finished_credits_inventory_once (s : SysState) (id_input : String)
    (b : Batch) (hb : lookupA s.batches id_input = some b)
    (hnf : b.phase_current ≠ Phase.finished)
    (hflag : b.bottles_put_in_inventory = false) (now : DateTime) :
    (change_batchs_phase s id_input PhaseInput.finished "not applicable"
        now).1 = ChangeResult.changed ∧
    (change_batchs_phase s id_input PhaseInput.finished "not applicable"
        now).2.inventory.get b.beer_type =
      s.inventory.get b.beer_type + ((b.volume * 2 : Nat) : Int) ∧
    (∀ bt, bt ≠ b.beer_type →
      (change_batchs_phase s id_input PhaseInput.finished "not applicable"
          now).2.inventory.get bt = s.inventory.get bt) ∧
    (lookupA (change_batchs_phase s id_input PhaseInput.finished
        "not applicable" now).2.batches id_input).map
      Batch.bottles_put_in_inventory = some true ∧
    (∀ (s2 : SysState) (id2 : String) (b2 : Batch),
      lookupA s2.batches id2 = some b2 →
      b2.phase_current = Phase.finished →
      ∀ (ph : PhaseInput) (tk : String) (now2 : DateTime),
        change_batchs_phase s2 id2 ph tk now2 =
          (ChangeResult.noAction, s2)) := by
  rw [change_accept_na s id_input hb hnf (Or.inr (Or.inr rfl)) now]
  obtain ⟨hinv, hflag2⟩ := apply_finished_effect s id_input hb hflag now
  refine ⟨rfl, ?_, ?_, hflag2, ?_⟩
  · show (apply_phase_change s id_input b PhaseInput.finished
      "not applicable" now).inventory.get b.beer_type = _
    rw [hinv]
    exact Inventory.get_add_self s.inventory b.beer_type _
  · intro bt hbt
    show (apply_phase_change s id_input b PhaseInput.finished
      "not applicable" now).inventory.get bt = _
    rw [hinv]
    exact Inventory.get_add_other s.inventory _ hbt
  · intro s2 id2 b2 hb2 hfin2 ph tk now2
    exact change_finished_noop s2 id2 hb2 hfin2 ph tk now2

/-- C1 witness: the single unset batch b1 (dunkers, 100 L) is moved
straight to finished; the theorem yields the credit of 200 bottles. -/
theorem C1_witness :
    lookupA state_one_batch.batches "b1" = some batch_b1 ∧
    batch_b1.phase_current ≠ Phase.finished ∧
    batch_b1.bottles_put_in_inventory = false ∧
    ((change_batchs_phase state_one_batch "b1" PhaseInput.finished
        "not applicable" d0).1 = ChangeResult.changed ∧
     (change_batchs_phase state_one_batch "b1" PhaseInput.finished
        "not applicable" d0).2.inventory.get batch_b1.beer_type =
       state_one_batch.inventory.get batch_b1.beer_type +
         ((batch_b1.volume * 2 : Nat) : Int) ∧
     (∀ bt, bt ≠ batch_b1.beer_type →
       (change_batchs_phase state_one_batch "b1" PhaseInput.finished
           "not applicable" d0).2.inventory.get bt =
         state_one_batch.inventory.get bt) ∧
     (lookupA (change_batchs_phase state_one_batch "b1" PhaseInput.finished
         "not applicable" d0).2.batches "b1").map
       Batch.bottles_put_in_inventory = some true ∧
     (∀ (s2 : SysState) (id2 : String) (b2 : Batch),
       lookupA s2.batches id2 = some b2 →
       b2.phase_current = Phase.finished →
       ∀ (ph : PhaseInput) (tk : String) (now2 : DateTime),
         change_batchs_phase s2 id2 ph tk now2 =
           (ChangeResult.noAction, s2))) :=
  ⟨by decide, by decide, by decide,
   C1_finished_credits_inventory_once state_one_batch "b1" batch_b1
     (by decide) (by decide) (by decide) d0⟩

/-- C2 counterexample: the batch b1 sits in the unset phase (it has never
even been in hot brewing), yet a request to move it directly into finished
is accepted, skipping every intermediate phase of the claimed fixed
order.  This refutes the claim that no accepted phase-change call skips a
phase. -/
theorem C2_counterexample :
    lookupA state_one_batch.batches "b1" = some batch_b1 ∧
    batch_b1.phase_current = Phase.unset ∧
    (change_batchs_phase state_one_batch "b1" PhaseInput.finished
        "not applicable" d0).1 = ChangeResult.changed ∧
    (lookupA (change_batchs_phase state_one_batch "b1" PhaseInput.finished
        "not applicable" d0).2.batches "b1").map Batch.phase_current =
      some Phase.finished := by
  decide

/-- C2 (amended): the phase-change handler enforces no ordering between
phases.  For any non-finished batch, a request for hot brewing, bottling
or finished with the not-applicable tank value is always accepted and sets
exactly the requested phase, whatever the current phase is — phases can be
skipped or revisited; only finished is terminal. -/
theorem C2_no_order_enforced (s : SysState) (id_input : String) (b : Batch)
    (hb : lookupA s.batches id_input = some b)
    (hnf : b.phase_current ≠ Phase.finished) (ph : PhaseInput)
    (hph : ph = PhaseInput.hot_brewing ∨ ph = PhaseInput.bottling ∨
      ph = PhaseInput.finished) (now : DateTime) :
    (change_batchs_phase s id_input ph "not applicable" now).1 =
      ChangeResult.changed ∧
    (lookupA (change_batchs_phase s id_input ph "not applicable"
        now).2.batches id_input).map Batch.phase_current =
      some ph.toPhase := by
  rw [change_accept_na s id_input hb hnf hph now]
  exact ⟨rfl,
    (apply_phase_change_lookup s id_input hb ph "not applicable" now).1⟩

/-- C2 witness: a batch sitting in unset is moved directly to bottling. -/
theorem C2_witness :
    lookupA state_one_batch.batches "b1" = some batch_b1 ∧
    batch_b1.phase_current ≠ Phase.finished ∧
    ((change_batchs_phase state_one_batch "b1" PhaseInput.bottling
        "not applicable" d0).1 = ChangeResult.changed ∧
     (lookupA (change_batchs_phase state_one_batch "b1" PhaseInput.bottling
         "not applicable" d0).2.batches "b1").map Batch.phase_current =
       some PhaseInput.bottling.toPhase) :=
  ⟨by decide, by decide,
   C2_no_order_enforced state_one_batch "b1" batch_b1 (by decide) (by decide)
     PhaseInput.bottling (Or.inr (Or.inl rfl)) d0⟩

/-- C7 counterexample: a transition request on the finished batch bf is
not rejected with any StateError-style message: the guard of the handler merely
skips the whole transition block and renders the normal page (noAction is
the outcome carrying no message at all; the only message-bearing outcomes
of the handler are tankUnavailable and wrongTank).  The state is unchanged, but
the claimed StateError rejection does not exist. -/
theorem C7_counterexample :
    change_batchs_phase state_finished "bf" PhaseInput.ferm "albert" d0 =
      (ChangeResult.noAction, state_finished) := by
  decide

/-- C7 (amended): any transition request on a batch already in finished is
silently ignored: no error is reported (the handler renders the page with
no message) and the entire state — phase, tank assignment, timestamps,
credited flag and inventory — is exactly as before the call. -/
theorem C7_finished_request_ignored (s : SysState) (id_input : String)
    (b : Batch) (hb : lookupA s.batches id_input = some b)
    (hfin : b.phase_current = Phase.finished) (ph : PhaseInput) (tk : String)
    (now : DateTime) :
    change_batchs_phase s id_input ph tk now =
      (ChangeResult.noAction, s) :=
  change_finished_noop s id_input hb hfin ph tk now

/-- C7 witness: the theorem applied to the finished batch bf with a
bottling request. -/
theorem C7_witness :
    lookupA state_finished.batches "bf" = some batch_fin ∧
    batch_fin.phase_current = Phase.finished ∧
    change_batchs_phase state_finished "bf" PhaseInput.bottling
      "not applicable" d0 = (ChangeResult.noAction, state_finished) :=
  ⟨by decide, by decide,
   C7_finished_request_ignored state_finished "bf" batch_fin (by decide)
     (by decide) PhaseInput.bottling "not applicable" d0⟩

/-- C9 counterexample: a phase-change request naming a batch id that is
not in the batches dictionary evaluates batches[id_input] and raises an
uncaught KeyError (modelled as the keyError outcome): the request dies
with a server error instead of returning a typed NotFoundError value to
the caller.  No state is mutated. -/
theorem C9_counterexample :
    change_batchs_phase init_state "ghost" PhaseInput.ferm "albert" d0 =
      (ChangeResult.keyError, init_state) := by
  decide

/-- C9 (amended): a phase-change request naming an unknown batch id
mutates no batch, tank assignment or inventory state, but it does not
return a typed NotFoundError value: the handler raises an uncaught
KeyError (an HTTP 500 for the caller). -/
theorem C9_unknown_batch_raises (s : SysState) (id_input : String)
    (h : lookupA s.batches id_input = none) (ph : PhaseInput) (tk : String)
    (now : DateTime) :
    change_batchs_phase s id_input ph tk now =
      (ChangeResult.keyError, s) :=
  change_keyError_eq s id_input ph tk now h

/-- C9 witness: the theorem applied to an id absent from a nonempty batch
dictionary. -/
theorem C9_witness :
    lookupA state_one_batch.batches "nope" = none ∧
    change_batchs_phase state_one_batch "nope" PhaseInput.cond "gertrude"
      d0 = (ChangeResult.keyError, state_one_batch) :=
  ⟨by decide,
   C9_unknown_batch_raises state_one_batch "nope" (by decide)
     PhaseInput.cond "gertrude" d0⟩

/-- C3: dispatching a pending order either fails on insufficient stock
with nothing changed, or succeeds, subtracting exactly the quantity
ordered from the beer type of the order, leaving the other counts and the
batches untouched, marking the order dispatched, and never driving any
inventory count negative (reachable states have nonnegative counts). -/
theorem C3_dispatch_all_or_nothing (s : SysState) (invoice : String)
    (o : Order) (hre : Reachable s)
    (ho : lookupA s.orders invoice = some o)
    (hpend : o.dispatched ≠ "dispatched") :
    (s.inventory.get o.recipe < (o.quantity_ordered : Int) →
      dispatch_order s invoice =
        (DispatchResult.insufficientStock o.recipe, s)) ∧
    ((o.quantity_ordered : Int) ≤ s.inventory.get o.recipe →
      (dispatch_order s invoice).1 = DispatchResult.dispatched ∧
      (dispatch_order s invoice).2.inventory.get o.recipe =
        s.inventory.get o.recipe - (o.quantity_ordered : Int) ∧
      (∀ bt, bt ≠ o.recipe →
        (dispatch_order s invoice).2.inventory.get bt =
          s.inventory.get bt) ∧
      (lookupA (dispatch_order s invoice).2.orders invoice).map
        Order.dispatched = some "dispatched" ∧
      (dispatch_order s invoice).2.batches = s.batches ∧
      (∀ bt, 0 ≤ (dispatch_order s invoice).2.inventory.get bt)) := by
  have hwf := wf_invariant hre
  unfold dispatch_order
  rw [ho]
  simp only
  rw [if_neg hpend]
  by_cases hq : (o.quantity_ordered : Int) ≤ s.inventory.get o.recipe
  · rw [if_pos hq]
    constructor
    · intro hlt
      exact absurd hq (not_le.mpr hlt)
    · intro _
      refine ⟨rfl, ?_, ?_, ?_, rfl, ?_⟩
      · exact Inventory.get_sub_self s.inventory o.recipe _
      · intro bt hbt
        exact Inventory.get_sub_other s.inventory _ hbt
      · rw [lookupA_updateA_self _ ho]
        rfl
      · intro bt
        by_cases hbt : bt = o.recipe
        · subst hbt
          rw [Inventory.get_sub_self]
          omega
        · rw [Inventory.get_sub_other _ _ hbt]
          exact hwf.1 bt
  · rw [if_neg hq]
    constructor
    · intro _
      rfl
    · intro hle
      exact absurd hle hq

/-- C3 witness: in the reachable state with 200 pilsner bottles in stock
and the pending order 901 for 50 bottles, the success branch of the theorem
gives the exact decrement and the dispatched mark. -/
theorem C3_witness :
    lookupA state_c3c.orders "901" = some order_c3 ∧
    order_c3.dispatched ≠ "dispatched" ∧
    ((state_c3c.inventory.get order_c3.recipe <
        (order_c3.quantity_ordered : Int) →
      dispatch_order state_c3c "901" =
        (DispatchResult.insufficientStock order_c3.recipe, state_c3c)) ∧
     ((order_c3.quantity_ordered : Int) ≤
        state_c3c.inventory.get order_c3.recipe →
      (dispatch_order state_c3c "901").1 = DispatchResult.dispatched ∧
      (dispatch_order state_c3c "901").2.inventory.get order_c3.recipe =
        state_c3c.inventory.get order_c3.recipe -
          (order_c3.quantity_ordered : Int) ∧
      (∀ bt, bt ≠ order_c3.recipe →
        (dispatch_order state_c3c "901").2.inventory.get bt =
          state_c3c.inventory.get bt) ∧
      (lookupA (dispatch_order state_c3c "901").2.orders "901").map
        Order.dispatched = some "dispatched" ∧
      (dispatch_order state_c3c "901").2.batches = state_c3c.batches ∧
      (∀ bt, 0 ≤ (dispatch_order state_c3c "901").2.inventory.get bt))) :=
  ⟨by decide, by decide,
   C3_dispatch_all_or_nothing state_c3c "901" order_c3
     (Reachable.step
       (Reachable.step
         (Reachable.step Reachable.init
           (Step.addBatch init_state "wb" BeerType.pilsner 100))
         (Step.changePhase state_c3a "wb" PhaseInput.finished
           "not applicable" d0))
       (Step.registerOrder state_c3b "901" "Alice" "01/02/2026"
         BeerType.pilsner "7" 50))
     (by decide) (by decide)⟩

/-- Under the reachability invariant, membership of a catalog tank in the
handler-computed available list is exactly absence of a different active holder. -/
theorem available_iff_not_held {s : SysState} (hwf : WF s)
    {id_input : String} {b : Batch}
    (hb : lookupA s.batches id_input = some b) {tk : String}
    (htk : tk ≠ "not applicable") (hcat : tk ∈ get_tank_names) :
    tk ∈ available_tanks_for s.batches b ↔
      ¬ held_by_other_active s id_input tk := by
  constructor
  · intro hav hheld
    obtain ⟨p, hp, hpne, _, hpt⟩ := hheld
    exact hpne (holders_of_available hwf hb hav htk p hp hpt)
  · intro hnh
    by_cases hused : tk ∈ used_tanks s.batches
    · obtain ⟨p, hp, hne, he⟩ := mem_used_tanks.mp hused
      have hwfb := hwf.2.1 p hp
      have hreal1 : p.2.phase_current_tank ≠ "" := by
        rw [he]
        intro h1
        rw [h1] at hcat
        exact empty_not_tank_name hcat
      have hreal2 : p.2.phase_current_tank ≠ "not applicable" := by
        rw [he]
        exact htk
      have hfc : p.2.phase_current = Phase.ferm ∨
          p.2.phase_current = Phase.cond := by
        rcases hwfb.1 with h0 | h0 | ⟨_, h0⟩
        · exact absurd h0 hreal1
        · exact absurd h0 hreal2
        · exact h0
      have hact : p.2.phase_current ≠ Phase.finished := by
        rcases hfc with h' | h' <;> rw [h'] <;> simp
      have hpid : p.1 = id_input := by
        by_contra hne'
        exact hnh ⟨p, hp, hne', hact, he⟩
      have hlk := lookupA_of_mem_nodup hwf.2.2.2 hp
      rw [hpid, hb] at hlk
      have hbp : b = p.2 := Option.some.inj hlk
      apply mem_available_iff.mpr
      right
      rw [hbp]
      exact ⟨hne, he.symm⟩
    · exact mem_available_iff.mpr (Or.inl ⟨hcat, hused⟩)

/-- C4: for a ferm or cond request on a non-finished batch in a reachable
state, acceptance holds exactly when the named tank is not held by a
different active batch (the own tank of the batch always passes), its
capability list contains the requested phase, and its capacity covers the
batch volume; and every batch currently in ferm or cond sits in a tank
with the matching capability and sufficient capacity. -/
theorem C4_tank_gating (s : SysState) (hre : Reachable s)
    (id_input : String) (b : Batch)
    (hb : lookupA s.batches id_input = some b)
    (hnf : b.phase_current ≠ Phase.finished) (ph : PhaseInput)
    (hph : ph = PhaseInput.ferm ∨ ph = PhaseInput.cond) (tk : String)
    (htk : tk ≠ "not applicable") (now : DateTime) :
    ((change_batchs_phase s id_input ph tk now).1 = ChangeResult.changed ↔
      (¬ held_by_other_active s id_input tk ∧
       ph.toStr ∈ (get_tank_value tk).capability ∧
       b.volume ≤ (get_tank_value tk).volume)) ∧
    (∀ p ∈ s.batches,
      (p.2.phase_current = Phase.ferm ∨ p.2.phase_current = Phase.cond) →
      p.2.phase_current.toStr ∈
        (get_tank_value p.2.phase_current_tank).capability ∧
      p.2.volume ≤ (get_tank_value p.2.phase_current_tank).volume) := by
  have hwf := wf_invariant hre
  constructor
  · rw [change_tank_result s id_input hb hnf hph htk now]
    constructor
    · rintro ⟨hav, hcap, hvol⟩
      have hcat : tk ∈ get_tank_names := by
        refine mem_names_of_ferm_cond ?_ hcap
        rcases hph with h' | h' <;> subst h' <;> simp [PhaseInput.toStr]
      exact ⟨(available_iff_not_held hwf hb htk hcat).mp hav, hcap, hvol⟩
    · rintro ⟨hnh, hcap, hvol⟩
      have hcat : tk ∈ get_tank_names := by
        refine mem_names_of_ferm_cond ?_ hcap
        rcases hph with h' | h' <;> subst h' <;> simp [PhaseInput.toStr]
      exact ⟨(available_iff_not_held hwf hb htk hcat).mpr hnh, hcap, hvol⟩
  · intro p hp hfc
    exact ((hwf.2.1 p hp).2 hfc).2

/-- C4 witness: in the reachable one-batch state, a ferm request for the
500 L dunkers batch naming albert (ferm capability, 1000 L) satisfies the
gating equivalence, and the invariant holds for every stored batch. -/
theorem C4_witness :
    lookupA state_c4.batches "c4" = some batch_c4 ∧
    batch_c4.phase_current ≠ Phase.finished ∧
    "albert" ≠ "not applicable" ∧
    (((change_batchs_phase state_c4 "c4" PhaseInput.ferm "albert" d0).1 =
        ChangeResult.changed ↔
      (¬ held_by_other_active state_c4 "c4" "albert" ∧
       PhaseInput.ferm.toStr ∈ (get_tank_value "albert").capability ∧
       batch_c4.volume ≤ (get_tank_value "albert").volume)) ∧
     (∀ p ∈ state_c4.batches,
       (p.2.phase_current = Phase.ferm ∨ p.2.phase_current = Phase.cond) →
       p.2.phase_current.toStr ∈
         (get_tank_value p.2.phase_current_tank).capability ∧
       p.2.volume ≤ (get_tank_value p.2.phase_current_tank).volume)) :=
  ⟨by decide, by decide, by decide,
   C4_tank_gating state_c4
     (Reachable.step Reachable.init
       (Step.addBatch init_state "c4" BeerType.dunkers 500))
     "c4" batch_c4 (by decide) (by decide) PhaseInput.ferm (Or.inl rfl)
     "albert" (by decide) d0⟩

/-- C5: the planner-computed beer choice (Python min over the deficit dict in
insertion order dunkers, pilsner, red_helles, replacing only on strictly
smaller values) equals the rule of the spec — most negative deficit, ties
broken by the fixed beer-type order — and on the scenario of the spec
(forecast totals 50/30/20 against projected totals 10/40/5) the deficits
are -40, 10 and -15 and dunkers (the source name for dunkel) is
recommended. -/
theorem C5_planner_beer_selection :
    (∀ g : BeerType → Int, select_min_beer g = spec_select_beer g) ∧
    diff_beer d0 [] inv_c5 forecast_c5 BeerType.dunkers = -40 ∧
    diff_beer d0 [] inv_c5 forecast_c5 BeerType.pilsner = 10 ∧
    diff_beer d0 [] inv_c5 forecast_c5 BeerType.red_helles = -15 ∧
    produce_beer d0 [] inv_c5 forecast_c5 = BeerType.dunkers := by
  refine ⟨?_, by decide, by decide, by decide, by decide⟩
  intro g
  simp only [select_min_beer, spec_select_beer]
  split_ifs <;> first | rfl | (exfalso; omega)

/-- C6 counterexample: planning on 31 January 2026, (i) the next-month
forecast key is built by adding 31 days to the current datetime, landing
in March and skipping February entirely, so variable month lengths are not
respected; and (ii) the stale batch whose projected finish was February
2025 — a year outside every window — is still credited 100 bottles to the
next-month (February) bucket, because only month numbers are compared and
the year is ignored. -/
theorem C6_counterexample :
    forecast_key2 dt_eom = ⟨2026, 3, 1, 0⟩ ∧
    three_month_end_inv dt_eom [("bs", batch_stale)] ⟨0, 0, 0⟩
      BeerType.dunkers 1 = 100 ∧
    (⟨2025, 2, 5, 0⟩ : DateTime).year ≠ dt_eom.year := by
  decide

/-- C6 (amended): the planner-computed three month windows are month-number
based.  For a current month m between 1 and 12 the bucket months are m,
m+1 and m+2 with values above 12 wrapped by subtracting 12 (so a finish
falling in calendar month 13 is re-mapped to month 1); the bucketing reads
only the month number — two planning runs whose current datetimes share a
month number build identical buckets, and a projected finish is counted
whenever its month number matches, its year being ignored; and the
first-of-month forecast keys are obtained by adding the day count of the current
month, which yields the true consecutive months for mid-month run
dates (e.g. from 15 January 2026: 1 Jan, 1 Feb, 1 Mar 2026) but not at
month ends (see the counterexample). -/
theorem C6_month_windows (m : Nat) (h1 : 1 ≤ m) (h2 : m ≤ 12) :
    (month_at m 0 = m ∧
     month_at m 1 = (if m + 1 ≤ 12 then m + 1 else m + 1 - 12) ∧
     month_at m 2 = (if m + 2 ≤ 12 then m + 2 else m + 2 - 12)) ∧
    (∀ (now1 now2 : DateTime) (batches : List (String × Batch))
       (inv : Inventory) (bt : BeerType) (i : Nat),
       now1.month = now2.month →
       three_month_end_inv now1 batches inv bt i =
         three_month_end_inv now2 batches inv bt i) ∧
    (∀ (b : Batch) (d dy : DateTime) (i : Nat), d.month = dy.month →
       batch_contribution m { b with time_end_phase4 := some d } i =
         batch_contribution m { b with time_end_phase4 := some dy } i) ∧
    (forecast_key1 d0 = ⟨2026, 1, 1, 0⟩ ∧
     forecast_key2 d0 = ⟨2026, 2, 1, 0⟩ ∧
     forecast_key3 d0 = ⟨2026, 3, 1, 0⟩) := by
  refine ⟨?_, ?_, ?_, by decide⟩
  · interval_cases m <;> decide
  · intro now1 now2 batches inv bt i hm
    unfold three_month_end_inv
    rw [hm]
  · intro b d dy i hdd
    simp only [batch_contribution, projected_end]
    rw [hdd]

/-- C6 witness: the theorem at the wrap month m = 12, where the second and
third bucket months are 1 and 2 of the following year. -/
theorem C6_witness :
    (1 ≤ 12 ∧ 12 ≤ 12) ∧
    ((month_at 12 0 = 12 ∧
      month_at 12 1 = (if 12 + 1 ≤ 12 then 12 + 1 else 12 + 1 - 12) ∧
      month_at 12 2 = (if 12 + 2 ≤ 12 then 12 + 2 else 12 + 2 - 12)) ∧
     (∀ (now1 now2 : DateTime) (batches : List (String × Batch))
        (inv : Inventory) (bt : BeerType) (i : Nat),
        now1.month = now2.month →
        three_month_end_inv now1 batches inv bt i =
          three_month_end_inv now2 batches inv bt i) ∧
     (∀ (b : Batch) (d dy : DateTime) (i : Nat), d.month = dy.month →
        batch_contribution 12 { b with time_end_phase4 := some d } i =
          batch_contribution 12 { b with time_end_phase4 := some dy } i) ∧
     (forecast_key1 d0 = ⟨2026, 1, 1, 0⟩ ∧
      forecast_key2 d0 = ⟨2026, 2, 1, 0⟩ ∧
      forecast_key3 d0 = ⟨2026, 3, 1, 0⟩)) :=
  ⟨⟨by decide, by decide⟩, C6_month_windows 12 (by decide) (by decide)⟩

/-- C8 counterexample: two non-catalog names, neither of which fails
closed.  Looking up mystery hits the AttributeError branch, which logs
the failure and returns the degraded default tank dict, and looking up
get_tank_names does not even raise: getattr succeeds and returns the
bound method with nothing logged.  In neither case does the lookup fail
with a NotFoundError-style result. -/
theorem C8_counterexample :
    tanks_getattr "mystery" = TankLookup.degradedDefault ∧
    tanks_getattr "get_tank_names" =
      TankLookup.otherAttribute "get_tank_names" := by
  decide

/-- C8 (amended): the tank lookup does not fail closed.  A name that is
no attribute of the Tanks instance at all hits AttributeError and is
logged and converted into the degraded default tank (capability [""],
volume 0); a name of one of the other existing attributes (the class
methods and the standard object attributes) makes getattr succeed and
return that raw attribute — a bound method or class attribute, neither a
tank value nor an error; and each of the nine catalog names returns the
capability set and capacity of that tank, as listed. -/
theorem C8_tank_lookup_not_fail_closed (t : String) :
    (t ∉ get_tank_names → t ∉ tanks_other_attribute_names →
      tanks_getattr t = TankLookup.degradedDefault) ∧
    (t ∉ get_tank_names → t ∈ tanks_other_attribute_names →
      tanks_getattr t = TankLookup.otherAttribute t) ∧
    (t ∈ get_tank_names →
      tanks_getattr t = TankLookup.tankDict (get_tank_value t)) ∧
    (get_tank_value "albert" = ⟨["ferm", "cond"], 1000⟩ ∧
     get_tank_value "brigadier" = ⟨["ferm", "cond"], 800⟩ ∧
     get_tank_value "camilla" = ⟨["ferm", "cond"], 1000⟩ ∧
     get_tank_value "dylon" = ⟨["ferm", "cond"], 800⟩ ∧
     get_tank_value "emily" = ⟨["ferm", "cond"], 1000⟩ ∧
     get_tank_value "florence" = ⟨["ferm", "cond"], 800⟩ ∧
     get_tank_value "gertrude" = ⟨["cond"], 680⟩ ∧
     get_tank_value "harry" = ⟨["cond"], 680⟩ ∧
     get_tank_value "r2d2" = ⟨["ferm"], 800⟩) := by
  refine ⟨?_, ?_, ?_, by decide⟩
  · intro h1 h2
    unfold tanks_getattr
    rw [if_neg h1, if_neg h2]
  · intro h1 h2
    unfold tanks_getattr
    rw [if_neg h1, if_pos h2]
  · intro h1
    unfold tanks_getattr
    rw [if_pos h1]

/-- C8 witness: the theorem applied at bob (no such attribute, so the
AttributeError branch yields the degraded default), at get_tank_value (an
existing non-tank attribute, so getattr returns the bound method) and at
albert (catalog name). -/
theorem C8_witness :
    ("bob" ∉ get_tank_names ∧ "bob" ∉ tanks_other_attribute_names ∧
      tanks_getattr "bob" = TankLookup.degradedDefault) ∧
    ("get_tank_value" ∉ get_tank_names ∧
      "get_tank_value" ∈ tanks_other_attribute_names ∧
      tanks_getattr "get_tank_value" =
        TankLookup.otherAttribute "get_tank_value") ∧
    ("albert" ∈ get_tank_names ∧
      tanks_getattr "albert" =
        TankLookup.tankDict (get_tank_value "albert")) :=
  ⟨⟨by decide, by decide,
    (C8_tank_lookup_not_fail_closed "bob").1 (by decide) (by decide)⟩,
   ⟨by decide, by decide,
    (C8_tank_lookup_not_fail_closed "get_tank_value").2.1 (by decide)
      (by decide)⟩,
   ⟨by decide,
    (C8_tank_lookup_not_fail_closed "albert").2.2.1 (by decide)⟩⟩

/-- Python max over a nonempty sequence keyed by the second component:
the fold keeps the first element attaining the maximum.  The result splits
the list into a strictly smaller prefix, the result, and a tail of values
at most the result. -/
theorem foldl_first_max {xs : List (String × Nat)} {x r : String × Nat}
    (hr : xs.foldl (fun best p => if best.2 < p.2 then p else best) x = r) :
    ∃ l₁ l₂, x :: xs = l₁ ++ r :: l₂ ∧ (∀ q ∈ l₁, q.2 < r.2) ∧
      (∀ q ∈ x :: xs, q.2 ≤ r.2) := by
  induction xs generalizing x with
  | nil =>
    cases hr
    exact ⟨[], [], rfl, by simp, by simp⟩
  | cons y ys ih =>
    rw [List.foldl_cons] at hr
    by_cases hxy : x.2 < y.2
    · rw [if_pos hxy] at hr
      obtain ⟨l₁, l₂, heq, hlt, hle⟩ := ih hr
      have hyr : y.2 ≤ r.2 := hle y (List.mem_cons_self y ys)
      refine ⟨x :: l₁, l₂, ?_, ?_, ?_⟩
      · rw [List.cons_append, ← heq]
      · intro q hq
        rcases List.mem_cons.mp hq with hq | hq
        · subst hq
          omega
        · exact hlt q hq
      · intro q hq
        rcases List.mem_cons.mp hq with hq | hq
        · subst hq
          omega
        · exact hle q hq
    · rw [if_neg hxy] at hr
      obtain ⟨l₁, l₂, heq, hlt, hle⟩ := ih hr
      have hxr : x.2 ≤ r.2 := hle x (List.mem_cons_self x ys)
      cases l₁ with
      | nil =>
        rw [List.nil_append] at heq
        obtain ⟨hx, hys⟩ := List.cons_eq_cons.mp heq
        refine ⟨[], y :: ys, ?_, by simp, ?_⟩
        · rw [List.nil_append, ← hx]
        · intro q hq
          rcases List.mem_cons.mp hq with hq | hq
          · subst hq
            exact hxr
          · rcases List.mem_cons.mp hq with hq | hq
            · subst hq
              omega
            · exact hle q (List.mem_cons_of_mem x hq)
      | cons a l₁x =>
        rw [List.cons_append] at heq
        obtain ⟨hx, hys⟩ := List.cons_eq_cons.mp heq
        have har : a.2 < r.2 := hlt a (List.mem_cons_self a l₁x)
        have hxar : x.2 < r.2 := by
          rw [hx]
          exact har
        refine ⟨x :: y :: l₁x, l₂, ?_, ?_, ?_⟩
        · simp only [List.cons_append]
          rw [← hys]
        · intro q hq
          rcases List.mem_cons.mp hq with hq | hq
          · subst hq
            exact hxar
          · rcases List.mem_cons.mp hq with hq | hq
            · subst hq
              omega
            · exact hlt q (List.mem_cons_of_mem a hq)
        · intro q hq
          rcases List.mem_cons.mp hq with hq | hq
          · subst hq
            exact hxr
          · rcases List.mem_cons.mp hq with hq | hq
            · subst hq
              omega
            · exact hle q (List.mem_cons_of_mem x hq)

/-- An append-cons decomposition of a mapped list pulls back to the
original list. -/
theorem map_eq_append_cons {α β : Type} (f : α → β) :
    ∀ (l : List α) (l₁ : List β) (r : β) (l₂ : List β),
      l.map f = l₁ ++ r :: l₂ →
      ∃ c₁ u c₂, l = c₁ ++ u :: c₂ ∧ c₁.map f = l₁ ∧ f u = r ∧
        c₂.map f = l₂ := by
  intro l
  induction l with
  | nil =>
    intro l₁ r l₂ h
    rw [List.map_nil] at h
    exact absurd h.symm (List.append_ne_nil_of_right_ne_nil l₁ (by simp))
  | cons a l ih =>
    intro l₁ r l₂ h
    cases l₁ with
    | nil =>
      rw [List.map_cons, List.nil_append] at h
      obtain ⟨h1, h2⟩ := List.cons_eq_cons.mp h
      exact ⟨[], a, l, by simp, rfl, h1, h2⟩
    | cons b l₁x =>
      rw [List.map_cons, List.cons_append] at h
      obtain ⟨h1, h2⟩ := List.cons_eq_cons.mp h
      obtain ⟨c₁, u, c₂, he, hm1, hm2, hm3⟩ := ih l₁x r l₂ h2
      refine ⟨a :: c₁, u, c₂, by simp [he], ?_, hm2, hm3⟩
      rw [List.map_cons, hm1, h1]

/-- Under the per-batch invariant, a catalog tank is unused exactly when
no active batch occupies it (non-active batches never hold catalog
names). -/
theorem not_used_iff_active_free {batches : List (String × Batch)}
    (hsh : ∀ p ∈ batches, WFB p.2) {t : String}
    (ht : t ∈ get_tank_names) :
    t ∉ used_tanks batches ↔
      ∀ p ∈ batches, p.2.phase_current ≠ Phase.finished →
        p.2.phase_current_tank ≠ t := by
  constructor
  · intro hn p hp _ he
    apply hn
    refine mem_used_tanks.mpr ⟨p, hp, ?_, he⟩
    rw [he]
    intro h0
    rw [h0] at ht
    exact empty_not_tank_name ht
  · intro hall hused
    obtain ⟨p, hp, hne, he⟩ := mem_used_tanks.mp hused
    have hwfb := hsh p hp
    have hreal2 : p.2.phase_current_tank ≠ "not applicable" := by
      rw [he]
      intro h0
      rw [h0] at ht
      exact na_not_tank_name ht
    have hfc : p.2.phase_current = Phase.ferm ∨
        p.2.phase_current = Phase.cond := by
      rcases hwfb.1 with h0 | h0 | ⟨_, h0⟩
      · exact absurd h0 hne
      · exact absurd h0 hreal2
      · exact h0
    have hact : p.2.phase_current ≠ Phase.finished := by
      rcases hfc with h' | h' <;> rw [h'] <;> simp
    exact hall p hp hact he

/-- The capable_tanks list of the planner equals, pairing each tank with its
volume, the candidate list of the spec (ferm-capable tanks unoccupied by any
active batch). -/
theorem capable_aux {batches : List (String × Batch)}
    (hsh : ∀ p ∈ batches, WFB p.2) :
    ∀ l : List String, (∀ t ∈ l, t ∈ get_tank_names) →
      (l.filter (fun t => t ∉ used_tanks batches)).filterMap
        (fun t =>
          if "ferm" ∈ (get_tank_value t).capability then
            some (t, (get_tank_value t).volume)
          else none) =
      (l.filter (fun t =>
          "ferm" ∈ (get_tank_value t).capability ∧
          ∀ p ∈ batches,
            p.2.phase_current ≠ Phase.finished →
            p.2.phase_current_tank ≠ t)).map
        (fun t => (t, (get_tank_value t).volume)) := by
  intro l
  induction l with
  | nil =>
    intro _
    rfl
  | cons a l ih =>
    intro hmem
    have ha := hmem a (List.mem_cons_self a l)
    have hiff := not_used_iff_active_free hsh ha
    have ihl := ih (fun t ht => hmem t (List.mem_cons_of_mem a ht))
    by_cases hu : a ∈ used_tanks batches
    · have hq : ¬("ferm" ∈ (get_tank_value a).capability ∧
          ∀ p ∈ batches, p.2.phase_current ≠ Phase.finished →
            p.2.phase_current_tank ≠ a) := by
        rintro ⟨-, hq'⟩
        exact (hiff.mpr hq') hu
      simp only [List.filter_cons]
      rw [if_neg (by simpa using hu), if_neg (by simpa using hq)]
      exact ihl
    · by_cases hf : "ferm" ∈ (get_tank_value a).capability
      · simp only [List.filter_cons]
        rw [if_pos (by simpa using hu),
          if_pos (by simp only [decide_eq_true_eq]; exact ⟨hf, hiff.mp hu⟩)]
        rw [List.filterMap_cons, List.map_cons]
        simp only [if_pos hf]
        rw [ihl]
      · have hq2 : ¬("ferm" ∈ (get_tank_value a).capability ∧
            ∀ p ∈ batches, p.2.phase_current ≠ Phase.finished →
              p.2.phase_current_tank ≠ a) := by
          rintro ⟨hc, -⟩
          exact hf hc
        simp only [List.filter_cons]
        rw [if_pos (by simpa using hu), if_neg (by simpa using hq2)]
        rw [List.filterMap_cons]
        simp only [if_neg hf]
        exact ihl

theorem capable_eq_spec {s : SysState} (hwf : WF s) :
    capable_tanks s.batches =
      (spec_tank_candidates s.batches).map
        (fun t => (t, (get_tank_value t).volume)) := by
  have h := capable_aux hwf.2.1 get_tank_names (fun t ht => ht)
  unfold capable_tanks plan_available_tanks spec_tank_candidates
  exact h

/-- C10: in any reachable state the planner reports no capable tank
exactly when the candidate set of the spec (ferm-capable tanks unoccupied by
any active batch) is empty, and otherwise names a candidate of maximal
capacity that is the first such candidate in the fixed alphabetical
tank-name order (every earlier-named candidate has strictly smaller
capacity). -/
theorem C10_planner_tank_selection (s : SysState) (hre : Reachable s) :
    (use_tank s.batches = none ↔ spec_tank_candidates s.batches = []) ∧
    (∀ t, use_tank s.batches = some t →
      t ∈ spec_tank_candidates s.batches ∧
      (∀ u ∈ spec_tank_candidates s.batches,
        (get_tank_value u).volume ≤ (get_tank_value t).volume) ∧
      (∃ c₁ c₂, spec_tank_candidates s.batches = c₁ ++ t :: c₂ ∧
        ∀ u ∈ c₁,
          (get_tank_value u).volume < (get_tank_value t).volume)) := by
  have hcs := capable_eq_spec (wf_invariant hre)
  constructor
  · constructor
    · intro hnone
      cases hc : capable_tanks s.batches with
      | nil =>
        rw [hc] at hcs
        exact List.map_eq_nil_iff.mp hcs.symm
      | cons x xs =>
        unfold use_tank at hnone
        rw [hc] at hnone
        simp at hnone
    · intro hnil
      have hcap : capable_tanks s.batches = [] := by
        rw [hnil, List.map_nil] at hcs
        exact hcs
      unfold use_tank
      rw [hcap]
  · intro t ht
    unfold use_tank at ht
    cases hc : capable_tanks s.batches with
    | nil =>
      rw [hc] at ht
      simp at ht
    | cons x xs =>
      rw [hc] at ht
      simp only [Option.some.injEq] at ht
      rw [hc] at hcs
      obtain ⟨l₁, l₂, heq, hlt, hle⟩ := foldl_first_max
        (rfl : xs.foldl (fun best p => if best.2 < p.2 then p else best) x
          = _)
      rw [heq] at hcs
      obtain ⟨c₁, u, c₂, hce, hm1, hm2, hm3⟩ :=
        map_eq_append_cons _ (spec_tank_candidates s.batches) l₁ _ l₂
          hcs.symm
      have hu1 : u =
          (xs.foldl (fun best p => if best.2 < p.2 then p else best) x).1 :=
        congrArg Prod.fst hm2
      have hu2 : (get_tank_value u).volume =
          (xs.foldl (fun best p => if best.2 < p.2 then p else best) x).2 :=
        congrArg Prod.snd hm2
      have hut : u = t := by
        rw [hu1, ht]
      subst hut
      refine ⟨?_, ?_, c₁, c₂, hce, ?_⟩
      · rw [hce]
        exact List.mem_append.mpr (Or.inr (List.mem_cons_self u c₂))
      · intro v hv
        have hvmem : (v, (get_tank_value v).volume) ∈
            (spec_tank_candidates s.batches).map
              (fun t => (t, (get_tank_value t).volume)) :=
          List.mem_map_of_mem _ hv
        rw [← hcs, ← heq] at hvmem
        have := hle _ hvmem
        rw [hu2]
        exact this
      · intro v hv
        have hvmem : (v, (get_tank_value v).volume) ∈ l₁ := by
          rw [← hm1]
          exact List.mem_map_of_mem _ hv
        have := hlt _ hvmem
        rw [hu2]
        exact this

/-- C10 witness: in the reachable state with one unset 500 L batch (no
tank occupied), the selection equivalence and max-capacity
characterization hold; the planner names albert (1000 L, first of the
maximal-capacity candidates in name order). -/
theorem C10_witness :
    ((use_tank state_c4.batches = none ↔
        spec_tank_candidates state_c4.batches = []) ∧
     (∀ t, use_tank state_c4.batches = some t →
       t ∈ spec_tank_candidates state_c4.batches ∧
       (∀ u ∈ spec_tank_candidates state_c4.batches,
         (get_tank_value u).volume ≤ (get_tank_value t).volume) ∧
       (∃ c₁ c₂, spec_tank_candidates state_c4.batches = c₁ ++ t :: c₂ ∧
         ∀ u ∈ c₁,
           (get_tank_value u).volume < (get_tank_value t).volume))) ∧
    use_tank state_c4.batches = some "albert" :=
  ⟨C10_planner_tank_selection state_c4
     (Reachable.step Reachable.init
       (Step.addBatch init_state "c4" BeerType.dunkers 500)),
   by decide⟩
